import Mathlib

/-!
Shallow embedding of `env/peg_insertion.py` (PegInsertionEnv).

The environment wraps an external physics simulator.  We model the simulator
readings available to the adapter (`get_body_com`, `data.get_body_xpos`,
`qpos`, `qvel`, ...) as a `SimState` record supplied to each operation: the
physics transition itself is external to the repository, so `step` receives
the post-simulation state as an input.  All scalar arithmetic is carried out
in an arbitrary linear ordered field `α`; the Euclidean norm used by
`np.linalg.norm` is `sqrt` of a sum of squares, with `sqrt` passed in as a
function so that the definitions stay computable.  The intended instance,
used in every theorem, is `α := ℝ` with `sqrt := Real.sqrt`.

The Python `info` dictionary is modelled as a record of optional entries
(`none` = key absent); the mutation of `self._prev_dist`, `self._success`,
`self._episode_length`, `self._episode_reward` is modelled by explicit
`EpState` passing.  An unset task mode (neither "insert" nor "remove") makes
the Python code crash on the unbound local `reward`; operations return
`Option` and yield `none` on that path.
-/

namespace PegInsertion

/-- Configuration surface of the environment (`config` fields read in
`__init__`).  `action_noise = none` models `config.action_noise is None`. -/
structure Config (α : Type) where
  sparse_rew : Bool
  task : String
  max_episode_steps : Nat
  robot_ob : Bool
  goal_pos_threshold : α
  action_noise : Option α
  peg_to_point_rew_coeff : α
  success_rew : α
  control_penalty_coeff : α

/-- Readings the adapter takes from the simulator at one instant:
`get_body_com("leg_bottom")`, `get_body_com("leg_top")`,
`data.get_body_xpos("ball")`, `data.get_body_xquat("ball")`, and the joint
state `qpos`/`qvel` (7 joints). -/
structure SimState (α : Type) where
  leg_bottom : Fin 3 → α
  leg_top : Fin 3 → α
  ball_xpos : Fin 3 → α
  ball_xquat : Fin 4 → α
  qpos : Fin 7 → α
  qvel : Fin 7 → α

/-- Episodic variables mutated by `step` and reset by `_reset_episodic_vars`. -/
structure EpState (α : Type) where
  episode_length : Nat
  episode_reward : α
  success : Bool
  prev_dist : α

/-- The `info` dictionary: each field is a key, `none` meaning the key is
absent.  `_remove_reward` fills `dist_to_start`/`peg_to_start_rew`,
`_insert_reward` fills `dist_to_goal`/`peg_to_goal_rew`; `step` adds
`episode_reward`/`episode_success` on termination and always adds `reward`. -/
structure Info (α : Type) where
  dist_to_start : Option α := none
  dist_to_goal : Option α := none
  control_rew : Option α := none
  peg_to_start_rew : Option α := none
  peg_to_goal_rew : Option α := none
  success_rew : Option α := none
  episode_reward : Option α := none
  episode_success : Option Nat := none
  reward : Option α := none

/-- Observation dictionary: `object_ob` is always present, `robot_ob` only
when configured (`none` = key absent). -/
structure Obs (α : Type) where
  object_ob : List α
  robot_ob : Option (List α)

/-- Result of `_remove_reward` / `_insert_reward`: the returned scalar and
info dict, together with the updated `self._prev_dist` and `self._success`. -/
structure RewardResult (α : Type) where
  reward : α
  info : Info α
  prev_dist : α
  success : Bool

variable {α : Type} [LinearOrderedField α]

/-- `np.hstack` of two 3-vectors. -/
def hstack2 (u v : Fin 3 → α) : Fin 6 → α :=
  ![u 0, u 1, u 2, v 0, v 1, v 2]

/-- `np.linalg.norm` of a 6-vector: square root of the sum of squares. -/
def norm6 (sqrt : α → α) (v : Fin 6 → α) : α :=
  sqrt (∑ i : Fin 6, v i * v i)

/-- `np.dot(a, a)` for the 7-dimensional action. -/
def dot7 (a : Fin 7 → α) : α :=
  ∑ i : Fin 7, a i * a i

/-- `self._start_pos` (remove task reference pose, fixed 6-vector). -/
def start_pos : Fin 6 → α :=
  ![0.10600084, 0.15715909, 0.1496843, 0.24442536, -0.09417238, 0.23726938]

/-- `self._goal_pos` (insert task reference pose, fixed 6-vector). -/
def goal_pos : Fin 6 → α :=
  ![0, 0.3, -0.5, 0, 0.3, -0.2]

/-- `np.hstack([get_body_com("leg_bottom"), get_body_com("leg_top")])`. -/
def peg_pos (sim : SimState α) : Fin 6 → α :=
  hstack2 sim.leg_bottom sim.leg_top

/-- `np.linalg.norm(self._start_pos - peg_pos)`. -/
def dist_to_start (sqrt : α → α) (sim : SimState α) : α :=
  norm6 sqrt (start_pos - peg_pos sim)

/-- `np.linalg.norm(self._goal_pos - peg_pos)`. -/
def dist_to_goal (sqrt : α → α) (sim : SimState α) : α :=
  norm6 sqrt (goal_pos - peg_pos sim)

/-- `_get_obs`: object pose (position ++ quaternion of body "ball"),
plus robot state (qpos ++ qvel) when `self._robot_ob` is set. -/
def get_obs (cfg : Config α) (sim : SimState α) : Obs α :=
  { object_ob := List.ofFn sim.ball_xpos ++ List.ofFn sim.ball_xquat
    robot_ob :=
      if cfg.robot_ob then
        some (List.ofFn sim.qpos ++ List.ofFn sim.qvel)
      else none }

/-- `_remove_reward(s, a)`. -/
def remove_reward (sqrt : α → α) (cfg : Config α) (prev_dist : α)
    (sim : SimState α) (a : Fin 7 → α) : RewardResult α :=
  let d := dist_to_start sqrt sim
  let dist_diff := prev_dist - d
  let peg_to_start_reward := dist_diff * cfg.peg_to_point_rew_coeff
  let control_reward := dot7 a * cfg.control_penalty_coeff * (-1)
  let peg_at_start : Bool := decide (d < cfg.goal_pos_threshold)
  let success_reward := if peg_at_start then cfg.success_rew else 0
  let rew :=
    if cfg.sparse_rew then control_reward + success_reward
    else peg_to_start_reward + control_reward + success_reward
  { reward := rew
    info :=
      { dist_to_start := some d
        control_rew := some control_reward
        peg_to_start_rew := some peg_to_start_reward
        success_rew := some success_reward }
    prev_dist := d
    success := peg_at_start }

/-- `_insert_reward(s, a)`. -/
def insert_reward (sqrt : α → α) (cfg : Config α) (prev_dist : α)
    (sim : SimState α) (a : Fin 7 → α) : RewardResult α :=
  let d := dist_to_goal sqrt sim
  let dist_diff := prev_dist - d
  let peg_to_goal_reward := dist_diff * cfg.peg_to_point_rew_coeff
  let control_reward := dot7 a * cfg.control_penalty_coeff * (-1)
  let peg_at_goal : Bool :=
    decide (d < cfg.goal_pos_threshold) && decide (sim.leg_bottom 2 < -0.45)
  let success_reward := if peg_at_goal then cfg.success_rew else 0
  let rew :=
    if cfg.sparse_rew then control_reward + success_reward
    else peg_to_goal_reward + control_reward + success_reward
  { reward := rew
    info :=
      { dist_to_goal := some d
        control_rew := some control_reward
        peg_to_goal_rew := some peg_to_goal_reward
        success_rew := some success_reward }
    prev_dist := d
    success := peg_at_goal }

/-- `_reset_episodic_vars`: zeroes the counters and recomputes
`self._prev_dist` from the current pose.  When the task is neither "remove"
nor "insert", `self._prev_dist` is never assigned (`none`). -/
def reset_episodic_vars (sqrt : α → α) (cfg : Config α) (sim : SimState α) :
    Option (EpState α) :=
  if cfg.task = "remove" then
    some { episode_length := 0, episode_reward := 0, success := false
           prev_dist := dist_to_start sqrt sim }
  else if cfg.task = "insert" then
    some { episode_length := 0, episode_reward := 0, success := false
           prev_dist := dist_to_goal sqrt sim }
  else none

/-- `reset()`: the simulator-side model reset is external; given the
post-reset `SimState`, the adapter returns the fresh observation and the
reset episodic variables. -/
def reset (sqrt : α → α) (cfg : Config α) (sim : SimState α) :
    Obs α × Option (EpState α) :=
  (get_obs cfg sim, reset_episodic_vars sqrt cfg sim)

/-- Noise injection in `step`: when `self._action_noise is not None`, each
component is perturbed by a uniform sample (supplied here as `noise`). -/
def apply_noise (cfg : Config α) (a noise : Fin 7 → α) : Fin 7 → α :=
  match cfg.action_noise with
  | none => a
  | some _ => fun i => a i + noise i

/-- `step(a)`: given the post-simulation `SimState`, computes the observation,
reward, done flag, info dict and the updated episodic variables.  Returns
`none` when the task is neither "insert" nor "remove" (the Python code then
crashes on the unbound local `reward`). -/
def step (sqrt : α → α) (cfg : Config α) (es : EpState α) (sim : SimState α)
    (a0 noise : Fin 7 → α) : Option (Obs α × α × Bool × Info α × EpState α) :=
  let a := apply_noise cfg a0 noise
  let obs := get_obs cfg sim
  let len := es.episode_length + 1
  let res :=
    if cfg.task = "insert" then some (insert_reward sqrt cfg es.prev_dist sim a)
    else if cfg.task = "remove" then some (remove_reward sqrt cfg es.prev_dist sim a)
    else none
  match res with
  | none => none
  | some r =>
    let episode_reward := es.episode_reward + r.reward
    let done := r.success || decide (len = cfg.max_episode_steps)
    let info1 :=
      if done then
        { r.info with
            episode_reward := some episode_reward
            episode_success := some (if r.success then 1 else 0) }
      else r.info
    let info2 := { info1 with reward := some r.reward }
    some (obs, r.reward, done, info2,
      { episode_length := len, episode_reward := episode_reward
        success := r.success, prev_dist := r.prev_dist })

/-- One step's worth of external inputs: the post-simulation state, the
caller's action, and the sampled noise vector. -/
structure SimInput (α : Type) where
  sim : SimState α
  action : Fin 7 → α
  noise : Fin 7 → α

/-- One step's outputs together with the episodic variables after the step. -/
structure StepOut (α : Type) where
  obs : Obs α
  reward : α
  done : Bool
  info : Info α
  es : EpState α

/-- Iterate `step` over a list of per-step inputs, collecting outputs. -/
def run (sqrt : α → α) (cfg : Config α) (es : EpState α) :
    List (SimInput α) → Option (List (StepOut α))
  | [] => some []
  | i :: rest =>
    match step sqrt cfg es i.sim i.action i.noise with
    | none => none
    | some (obs, r, d, inf, es2) =>
      match run sqrt cfg es2 rest with
      | none => none
      | some outs => some ({ obs := obs, reward := r, done := d, info := inf, es := es2 } :: outs)

/-- The episodic variables after the last collected step (`es` if none). -/
def final_es (es : EpState α) : List (StepOut α) → EpState α
  | [] => es
  | o :: rest => final_es o.es rest

/-- The step-to-step distance deltas along a trace of outputs: the delta of
step k is `prev_dist` before the step minus `prev_dist` after it. -/
def deltas (es : EpState α) : List (StepOut α) → List α
  | [] => []
  | o :: rest => (es.prev_dist - o.es.prev_dist) :: deltas o.es rest

/-! ### Unfolding lemmas for `step` -/

theorem step_remove_eq (sqrt : α → α) (cfg : Config α) (htask : cfg.task = "remove")
    (es : EpState α) (sim : SimState α) (a0 noise : Fin 7 → α) :
    step sqrt cfg es sim a0 noise =
      (let r := remove_reward sqrt cfg es.prev_dist sim (apply_noise cfg a0 noise)
       let episode_reward := es.episode_reward + r.reward
       let done := r.success || decide (es.episode_length + 1 = cfg.max_episode_steps)
       some (get_obs cfg sim, r.reward, done,
        { (if done then
            { r.info with
                episode_reward := some episode_reward
                episode_success := some (if r.success then 1 else 0) }
           else r.info) with reward := some r.reward },
        { episode_length := es.episode_length + 1, episode_reward := episode_reward
          success := r.success, prev_dist := r.prev_dist })) := by
  simp only [step, htask]
  simp

theorem step_insert_eq (sqrt : α → α) (cfg : Config α) (htask : cfg.task = "insert")
    (es : EpState α) (sim : SimState α) (a0 noise : Fin 7 → α) :
    step sqrt cfg es sim a0 noise =
      (let r := insert_reward sqrt cfg es.prev_dist sim (apply_noise cfg a0 noise)
       let episode_reward := es.episode_reward + r.reward
       let done := r.success || decide (es.episode_length + 1 = cfg.max_episode_steps)
       some (get_obs cfg sim, r.reward, done,
        { (if done then
            { r.info with
                episode_reward := some episode_reward
                episode_success := some (if r.success then 1 else 0) }
           else r.info) with reward := some r.reward },
        { episode_length := es.episode_length + 1, episode_reward := episode_reward
          success := r.success, prev_dist := r.prev_dist })) := by
  simp only [step, htask]
  simp

theorem step_other_eq (sqrt : α → α) (cfg : Config α)
    (h1 : cfg.task ≠ "insert") (h2 : cfg.task ≠ "remove")
    (es : EpState α) (sim : SimState α) (a0 noise : Fin 7 → α) :
    step sqrt cfg es sim a0 noise = none := by
  simp only [step, if_neg h1, if_neg h2]

/-! ### Concrete fixtures used by witnesses -/

/-- A remove-task configuration with the spec's example coefficients. -/
def cfgRemove : Config ℝ :=
  { sparse_rew := false, task := "remove", max_episode_steps := 100
    robot_ob := false, goal_pos_threshold := 0.05, action_noise := none
    peg_to_point_rew_coeff := 1, success_rew := 10, control_penalty_coeff := 0 }

/-- A simulator state with everything at the origin. -/
def simZero : SimState ℝ :=
  { leg_bottom := fun _ => 0, leg_top := fun _ => 0, ball_xpos := fun _ => 0
    ball_xquat := fun _ => 0, qpos := fun _ => 0, qvel := fun _ => 0 }

/-- Episodic variables as right after a reset with previous distance 1. -/
def esInit : EpState ℝ :=
  { episode_length := 0, episode_reward := 0, success := false, prev_dist := 1 }

/-- A freshly reset episodic state (cumulative reward 0, distance 1). -/
def esReset : EpState ℝ :=
  { episode_length := 0, episode_reward := 0, success := false, prev_dist := 1 }

/-! ### C1 -/

/-- C1: for the remove task in non-sparse mode (no action noise), the scalar
reward returned by `step` equals `peg_to_point_rew_coeff * (previous_distance
- current_distance_to_start) - control_penalty_coeff * ‖action‖² +
success_bonus`, where the bonus is `success_rew` exactly when the current
distance to start is below `goal_pos_threshold`, and the success flag is set
to that same threshold test; with coefficients 1.0 / 0.0 / 10 / 0.05 the
reward is `(d0 - d1) * 1.0 + (10 if d1 < 0.05 else 0)`. -/
theorem C1_remove_reward_formula (cfg : Config ℝ) (es : EpState ℝ)
    (sim : SimState ℝ) (a0 noise : Fin 7 → ℝ)
    (htask : cfg.task = "remove") (hsparse : cfg.sparse_rew = false)
    (hnoise : cfg.action_noise = none) :
    (step Real.sqrt cfg es sim a0 noise).map (fun o => o.2.1) =
      some (cfg.peg_to_point_rew_coeff * (es.prev_dist - dist_to_start Real.sqrt sim)
        - cfg.control_penalty_coeff * dot7 a0
        + (if dist_to_start Real.sqrt sim < cfg.goal_pos_threshold
           then cfg.success_rew else 0))
    ∧ (step Real.sqrt cfg es sim a0 noise).map (fun o => o.2.2.2.2.success) =
      some (decide (dist_to_start Real.sqrt sim < cfg.goal_pos_threshold))
    ∧ (cfg.peg_to_point_rew_coeff = 1 → cfg.control_penalty_coeff = 0 →
        cfg.success_rew = 10 → cfg.goal_pos_threshold = 0.05 →
      (step Real.sqrt cfg es sim a0 noise).map (fun o => o.2.1) =
        some ((es.prev_dist - dist_to_start Real.sqrt sim) * 1
          + (if dist_to_start Real.sqrt sim < 0.05 then 10 else 0))) := by
  have ha : apply_noise cfg a0 noise = a0 := by
    simp [apply_noise, hnoise]
  rw [step_remove_eq Real.sqrt cfg htask es sim a0 noise]
  refine ⟨?_, ?_, ?_⟩
  · simp only [remove_reward, ha, hsparse, Bool.false_eq_true, if_false,
      Option.map_some', decide_eq_true_eq, Option.some.injEq]
    ring
  · simp [remove_reward]
  · intro h1 h2 h3 h4
    simp only [remove_reward, ha, hsparse, h1, h2, h3, h4, Bool.false_eq_true,
      if_false, Option.map_some', decide_eq_true_eq, Option.some.injEq]
    ring

/-- Witness for C1 at a concrete configuration and state. -/
theorem C1_remove_reward_formula_witness :
    cfgRemove.task = "remove" ∧ cfgRemove.sparse_rew = false ∧
    cfgRemove.action_noise = none ∧
    ((step Real.sqrt cfgRemove esInit simZero (fun _ => 0) (fun _ => 0)).map
        (fun o => o.2.1) =
      some (cfgRemove.peg_to_point_rew_coeff *
          (esInit.prev_dist - dist_to_start Real.sqrt simZero)
        - cfgRemove.control_penalty_coeff * dot7 (fun _ => 0)
        + (if dist_to_start Real.sqrt simZero < cfgRemove.goal_pos_threshold
           then cfgRemove.success_rew else 0))
    ∧ (step Real.sqrt cfgRemove esInit simZero (fun _ => 0) (fun _ => 0)).map
        (fun o => o.2.2.2.2.success) =
      some (decide (dist_to_start Real.sqrt simZero < cfgRemove.goal_pos_threshold))
    ∧ (cfgRemove.peg_to_point_rew_coeff = 1 → cfgRemove.control_penalty_coeff = 0 →
        cfgRemove.success_rew = 10 → cfgRemove.goal_pos_threshold = 0.05 →
      (step Real.sqrt cfgRemove esInit simZero (fun _ => 0) (fun _ => 0)).map
          (fun o => o.2.1) =
        some ((esInit.prev_dist - dist_to_start Real.sqrt simZero) * 1
          + (if dist_to_start Real.sqrt simZero < 0.05 then 10 else 0)))) :=
  ⟨rfl, rfl, rfl,
    C1_remove_reward_formula cfgRemove esInit simZero (fun _ => 0) (fun _ => 0)
      rfl rfl rfl⟩

/-! ### C2 -/

/-- An insert-task configuration for concrete witnesses. -/
def cfgInsert : Config ℝ :=
  { sparse_rew := false, task := "insert", max_episode_steps := 100
    robot_ob := false, goal_pos_threshold := 0.05, action_noise := none
    peg_to_point_rew_coeff := 1, success_rew := 10, control_penalty_coeff := 0 }

/-- C2: for the insert task, the success flag computed by a step is true iff
the peg pose is within `goal_pos_threshold` of the fixed 6-vector goal pose
AND the z coordinate of body "leg_bottom" is below -0.45; in particular
success is false after every step whose z coordinate is at least -0.45. -/
theorem C2_insert_success_test (cfg : Config ℝ) (es : EpState ℝ)
    (sim : SimState ℝ) (a0 noise : Fin 7 → ℝ) (htask : cfg.task = "insert") :
    (step Real.sqrt cfg es sim a0 noise).map (fun o => o.2.2.2.2.success) =
      some (decide (dist_to_goal Real.sqrt sim < cfg.goal_pos_threshold) &&
            decide (sim.leg_bottom 2 < -0.45))
    ∧ (-0.45 ≤ sim.leg_bottom 2 →
        (step Real.sqrt cfg es sim a0 noise).map (fun o => o.2.2.2.2.success) =
          some false) := by
  rw [step_insert_eq Real.sqrt cfg htask es sim a0 noise]
  constructor
  · simp [insert_reward]
  · intro hz
    have hnot : ¬ (sim.leg_bottom 2 < -0.45) := not_lt.2 hz
    simp [insert_reward, hnot]

/-- Witness for C2: at `simZero` the leg-bottom z coordinate is 0 ≥ -0.45,
so the success flag is false. -/
theorem C2_insert_success_test_witness :
    cfgInsert.task = "insert" ∧
    ((step Real.sqrt cfgInsert esInit simZero (fun _ => 0) (fun _ => 0)).map
        (fun o => o.2.2.2.2.success) =
      some (decide (dist_to_goal Real.sqrt simZero < cfgInsert.goal_pos_threshold) &&
            decide (simZero.leg_bottom 2 < -0.45))
    ∧ (-0.45 ≤ simZero.leg_bottom 2 →
        (step Real.sqrt cfgInsert esInit simZero (fun _ => 0) (fun _ => 0)).map
          (fun o => o.2.2.2.2.success) = some false)) :=
  ⟨rfl, C2_insert_success_test cfgInsert esInit simZero (fun _ => 0) (fun _ => 0) rfl⟩

/-! ### C3 -/

/-- The sparse remove-task configuration for witnesses. -/
def cfgRemoveSparse : Config ℝ :=
  { sparse_rew := true, task := "remove", max_episode_steps := 100
    robot_ob := false, goal_pos_threshold := 0.05, action_noise := none
    peg_to_point_rew_coeff := 1, success_rew := 10, control_penalty_coeff := 0.1 }

/-- C3: in sparse mode the returned scalar reward equals exactly the control
penalty plus the success bonus in either task, with the distance-delta
shaping term omitted, while the info dictionary of the same step still
reports the shaping term's value under `peg_to_start_rew` /
`peg_to_goal_rew`. -/
theorem C3_sparse_reward (cfg : Config ℝ) (es : EpState ℝ) (sim : SimState ℝ)
    (a0 noise : Fin 7 → ℝ) (hsparse : cfg.sparse_rew = true) :
    (cfg.task = "remove" →
      (step Real.sqrt cfg es sim a0 noise).map (fun o => o.2.1) =
        some (dot7 (apply_noise cfg a0 noise) * cfg.control_penalty_coeff * (-1)
          + (if dist_to_start Real.sqrt sim < cfg.goal_pos_threshold
             then cfg.success_rew else 0))
      ∧ (step Real.sqrt cfg es sim a0 noise).map (fun o => o.2.2.2.1.peg_to_start_rew) =
        some (some ((es.prev_dist - dist_to_start Real.sqrt sim) *
          cfg.peg_to_point_rew_coeff)))
    ∧ (cfg.task = "insert" →
      (step Real.sqrt cfg es sim a0 noise).map (fun o => o.2.1) =
        some (dot7 (apply_noise cfg a0 noise) * cfg.control_penalty_coeff * (-1)
          + (if dist_to_goal Real.sqrt sim < cfg.goal_pos_threshold ∧
                sim.leg_bottom 2 < -0.45
             then cfg.success_rew else 0))
      ∧ (step Real.sqrt cfg es sim a0 noise).map (fun o => o.2.2.2.1.peg_to_goal_rew) =
        some (some ((es.prev_dist - dist_to_goal Real.sqrt sim) *
          cfg.peg_to_point_rew_coeff))) := by
  constructor
  · intro htask
    rw [step_remove_eq Real.sqrt cfg htask es sim a0 noise]
    constructor
    · simp [remove_reward, hsparse]
    · simp [remove_reward]
      split <;> rfl
  · intro htask
    rw [step_insert_eq Real.sqrt cfg htask es sim a0 noise]
    constructor
    · simp [insert_reward, hsparse, Bool.and_eq_true, decide_eq_true_eq]
    · simp [insert_reward]
      split <;> rfl

/-- Witness for C3 at a concrete sparse remove-task configuration. -/
theorem C3_sparse_reward_witness :
    cfgRemoveSparse.sparse_rew = true ∧
    ((cfgRemoveSparse.task = "remove" →
      (step Real.sqrt cfgRemoveSparse esInit simZero (fun _ => 0) (fun _ => 0)).map
          (fun o => o.2.1) =
        some (dot7 (apply_noise cfgRemoveSparse (fun _ => 0) (fun _ => 0)) *
            cfgRemoveSparse.control_penalty_coeff * (-1)
          + (if dist_to_start Real.sqrt simZero < cfgRemoveSparse.goal_pos_threshold
             then cfgRemoveSparse.success_rew else 0))
      ∧ (step Real.sqrt cfgRemoveSparse esInit simZero (fun _ => 0) (fun _ => 0)).map
          (fun o => o.2.2.2.1.peg_to_start_rew) =
        some (some ((esInit.prev_dist - dist_to_start Real.sqrt simZero) *
          cfgRemoveSparse.peg_to_point_rew_coeff)))
    ∧ (cfgRemoveSparse.task = "insert" →
      (step Real.sqrt cfgRemoveSparse esInit simZero (fun _ => 0) (fun _ => 0)).map
          (fun o => o.2.1) =
        some (dot7 (apply_noise cfgRemoveSparse (fun _ => 0) (fun _ => 0)) *
            cfgRemoveSparse.control_penalty_coeff * (-1)
          + (if dist_to_goal Real.sqrt simZero < cfgRemoveSparse.goal_pos_threshold ∧
                simZero.leg_bottom 2 < -0.45
             then cfgRemoveSparse.success_rew else 0))
      ∧ (step Real.sqrt cfgRemoveSparse esInit simZero (fun _ => 0) (fun _ => 0)).map
          (fun o => o.2.2.2.1.peg_to_goal_rew) =
        some (some ((esInit.prev_dist - dist_to_goal Real.sqrt simZero) *
          cfgRemoveSparse.peg_to_point_rew_coeff)))) :=
  ⟨rfl, C3_sparse_reward cfgRemoveSparse esInit simZero (fun _ => 0) (fun _ => 0) rfl⟩

/-! ### Bookkeeping facts about a successful `step` -/

theorem step_some_bookkeeping (sqrt : α → α) (cfg : Config α) (es : EpState α)
    (sim : SimState α) (a0 noise : Fin 7 → α) (obs : Obs α) (r : α) (d : Bool)
    (inf : Info α) (es2 : EpState α)
    (h : step sqrt cfg es sim a0 noise = some (obs, r, d, inf, es2)) :
    es2.episode_reward = es.episode_reward + r
    ∧ inf.reward = some r
    ∧ es2.episode_length = es.episode_length + 1
    ∧ d = (es2.success || decide (es2.episode_length = cfg.max_episode_steps))
    ∧ inf.episode_reward = (if d then some es2.episode_reward else none)
    ∧ inf.episode_success = (if d then some (if es2.success then 1 else 0) else none)
    ∧ obs = get_obs cfg sim := by
  by_cases hi : cfg.task = "insert"
  · rw [step_insert_eq sqrt cfg hi es sim a0 noise] at h
    simp only [Option.some.injEq, Prod.mk.injEq] at h
    obtain ⟨h1, h2, h3, h4, h5⟩ := h
    subst h1 h2 h3 h4 h5
    refine ⟨rfl, rfl, rfl, rfl, ?_, ?_, rfl⟩ <;>
      · simp only [insert_reward]
        split <;> rfl
  · by_cases hr : cfg.task = "remove"
    · rw [step_remove_eq sqrt cfg hr es sim a0 noise] at h
      simp only [Option.some.injEq, Prod.mk.injEq] at h
      obtain ⟨h1, h2, h3, h4, h5⟩ := h
      subst h1 h2 h3 h4 h5
      refine ⟨rfl, rfl, rfl, rfl, ?_, ?_, rfl⟩ <;>
        · simp only [remove_reward]
          split <;> rfl
    · rw [step_other_eq sqrt cfg hi hr es sim a0 noise] at h
      exact absurd h (by simp)

/-! ### C4 -/

/-- C4: for a step in either task mode, the returned done flag is true iff
the success flag is true or the post-increment step count equals
`max_episode_steps`; and exactly when done is true the info dict contains the
total episode reward (`episode_reward`) and the binary success indicator
(`episode_success`). -/
theorem C4_done_and_terminal_info (cfg : Config ℝ) (es : EpState ℝ)
    (sim : SimState ℝ) (a0 noise : Fin 7 → ℝ)
    (htask : cfg.task = "insert" ∨ cfg.task = "remove") :
    (step Real.sqrt cfg es sim a0 noise).map (fun o => o.2.2.1) =
      (step Real.sqrt cfg es sim a0 noise).map (fun o =>
        o.2.2.2.2.success || decide (o.2.2.2.2.episode_length = cfg.max_episode_steps))
    ∧ (step Real.sqrt cfg es sim a0 noise).map (fun o => o.2.2.2.2.episode_length) =
      some (es.episode_length + 1)
    ∧ (step Real.sqrt cfg es sim a0 noise).map (fun o => o.2.2.2.1.episode_reward) =
      (step Real.sqrt cfg es sim a0 noise).map (fun o =>
        if o.2.2.1 then some o.2.2.2.2.episode_reward else none)
    ∧ (step Real.sqrt cfg es sim a0 noise).map (fun o => o.2.2.2.1.episode_success) =
      (step Real.sqrt cfg es sim a0 noise).map (fun o =>
        if o.2.2.1 then some (if o.2.2.2.2.success then 1 else 0) else none) := by
  cases hstep : step Real.sqrt cfg es sim a0 noise with
  | none =>
    rcases htask with h | h
    · rw [step_insert_eq Real.sqrt cfg h es sim a0 noise] at hstep
      exact absurd hstep (by simp)
    · rw [step_remove_eq Real.sqrt cfg h es sim a0 noise] at hstep
      exact absurd hstep (by simp)
  | some t =>
    obtain ⟨obs, r, d, inf, es2⟩ := t
    obtain ⟨_, _, hlen, hdone, hepr, heps, _⟩ :=
      step_some_bookkeeping Real.sqrt cfg es sim a0 noise obs r d inf es2 hstep
    simp only [Option.map_some']
    exact ⟨by rw [hdone], by rw [hlen], by rw [hepr], by rw [heps]⟩

/-- Witness for C4 at a concrete remove-task configuration and state. -/
theorem C4_done_and_terminal_info_witness :
    (cfgRemove.task = "insert" ∨ cfgRemove.task = "remove") ∧
    ((step Real.sqrt cfgRemove esInit simZero (fun _ => 0) (fun _ => 0)).map
        (fun o => o.2.2.1) =
      (step Real.sqrt cfgRemove esInit simZero (fun _ => 0) (fun _ => 0)).map
        (fun o => o.2.2.2.2.success ||
          decide (o.2.2.2.2.episode_length = cfgRemove.max_episode_steps))
    ∧ (step Real.sqrt cfgRemove esInit simZero (fun _ => 0) (fun _ => 0)).map
        (fun o => o.2.2.2.2.episode_length) = some (esInit.episode_length + 1)
    ∧ (step Real.sqrt cfgRemove esInit simZero (fun _ => 0) (fun _ => 0)).map
        (fun o => o.2.2.2.1.episode_reward) =
      (step Real.sqrt cfgRemove esInit simZero (fun _ => 0) (fun _ => 0)).map
        (fun o => if o.2.2.1 then some o.2.2.2.2.episode_reward else none)
    ∧ (step Real.sqrt cfgRemove esInit simZero (fun _ => 0) (fun _ => 0)).map
        (fun o => o.2.2.2.1.episode_success) =
      (step Real.sqrt cfgRemove esInit simZero (fun _ => 0) (fun _ => 0)).map
        (fun o => if o.2.2.1 then some (if o.2.2.2.2.success then 1 else 0)
          else none)) :=
  ⟨Or.inr rfl,
    C4_done_and_terminal_info cfgRemove esInit simZero (fun _ => 0) (fun _ => 0)
      (Or.inr rfl)⟩

/-! ### C5 -/

theorem run_bookkeeping (sqrt : α → α) (cfg : Config α) :
    ∀ (ins : List (SimInput α)) (es : EpState α) (outs : List (StepOut α)),
      run sqrt cfg es ins = some outs →
      (∀ k, (final_es es (outs.take k)).episode_reward =
        es.episode_reward + ((outs.take k).map (fun o => o.reward)).sum)
      ∧ (∀ o ∈ outs, o.info.reward = some o.reward)
      ∧ (∀ o ∈ outs, o.info.episode_reward = none ∨
          o.info.episode_reward = some o.es.episode_reward) := by
  intro ins
  induction ins with
  | nil =>
    intro es outs hrun
    simp only [run, Option.some.injEq] at hrun
    subst hrun
    refine ⟨?_, by simp, by simp⟩
    intro k
    simp [final_es]
  | cons i rest ih =>
    intro es outs hrun
    rw [run] at hrun
    cases hstep : step sqrt cfg es i.sim i.action i.noise with
    | none => rw [hstep] at hrun; exact absurd hrun (by simp)
    | some t =>
      obtain ⟨obs, r, d, inf, es2⟩ := t
      rw [hstep] at hrun
      dsimp only at hrun
      cases hrest : run sqrt cfg es2 rest with
      | none => rw [hrest] at hrun; exact absurd hrun (by simp)
      | some outs2 =>
        rw [hrest] at hrun
        simp only [Option.some.injEq] at hrun
        subst hrun
        obtain ⟨hb1, hb2, _, _, hb5, _, _⟩ :=
          step_some_bookkeeping sqrt cfg es i.sim i.action i.noise obs r d inf es2 hstep
        obtain ⟨ih1, ih2, ih3⟩ := ih es2 outs2 hrest
        refine ⟨?_, ?_, ?_⟩
        · intro k
          cases k with
          | zero => simp [final_es]
          | succ k2 =>
            simp only [List.take_succ_cons, final_es, List.map_cons, List.sum_cons]
            rw [ih1 k2, hb1]
            ring
        · intro o ho
          rcases List.mem_cons.1 ho with h | h
          · subst h; exact hb2
          · exact ih2 o h
        · intro o ho
          rcases List.mem_cons.1 ho with h | h
          · subst h
            by_cases hd : d
            · right; rw [hb5, if_pos hd]
            · left; rw [hb5, if_neg hd]
          · exact ih3 o h

/-- C5: over an episode (a run started from freshly reset episodic variables,
whose cumulative reward is 0), the cumulative-reward accumulator equals the
running sum of the per-step rewards after every step, every step's info
reports its reward under the key `reward`, and whenever a step's info carries
an `episode_reward` entry (the terminal step), that entry equals the
accumulator, hence the running sum of the per-step `reward` values. -/
theorem C5_episode_reward_is_sum (cfg : Config ℝ) (es : EpState ℝ)
    (ins : List (SimInput ℝ)) (outs : List (StepOut ℝ))
    (hrun : run Real.sqrt cfg es ins = some outs)
    (h0 : es.episode_reward = 0) :
    (∀ k, (final_es es (outs.take k)).episode_reward =
      ((outs.take k).map (fun o => o.reward)).sum)
    ∧ (∀ o ∈ outs, o.info.reward = some o.reward)
    ∧ (∀ o ∈ outs, o.info.episode_reward = none ∨
        o.info.episode_reward = some o.es.episode_reward) := by
  obtain ⟨h1, h2, h3⟩ := run_bookkeeping Real.sqrt cfg ins es outs hrun
  refine ⟨?_, h2, h3⟩
  intro k
  rw [h1 k, h0, zero_add]

/-- Witness for C5 on a concrete (empty) episode. -/
theorem C5_episode_reward_is_sum_witness :
    run Real.sqrt cfgRemove esReset [] = some [] ∧
    esReset.episode_reward = 0 ∧
    ((∀ k, (final_es esReset (([] : List (StepOut ℝ)).take k)).episode_reward =
      ((([] : List (StepOut ℝ)).take k).map (fun o => o.reward)).sum)
    ∧ (∀ o ∈ ([] : List (StepOut ℝ)), o.info.reward = some o.reward)
    ∧ (∀ o ∈ ([] : List (StepOut ℝ)), o.info.episode_reward = none ∨
        o.info.episode_reward = some o.es.episode_reward)) :=
  ⟨rfl, rfl, C5_episode_reward_is_sum cfgRemove esReset [] [] rfl rfl⟩

/-! ### C6 -/

theorem run_prev_dist_remove (sqrt : α → α) (cfg : Config α)
    (htask : cfg.task = "remove") :
    ∀ (ins : List (SimInput α)) (es : EpState α) (outs : List (StepOut α)),
      run sqrt cfg es ins = some outs →
      outs.map (fun o => o.es.prev_dist) =
        ins.map (fun i => dist_to_start sqrt i.sim)
      ∧ outs.map (fun o => o.info.peg_to_start_rew) =
        (deltas es outs).map (fun x => some (x * cfg.peg_to_point_rew_coeff)) := by
  intro ins
  induction ins with
  | nil =>
    intro es outs hrun
    simp only [run, Option.some.injEq] at hrun
    subst hrun
    simp [deltas]
  | cons i rest ih =>
    intro es outs hrun
    rw [run] at hrun
    cases hstep : step sqrt cfg es i.sim i.action i.noise with
    | none => rw [hstep] at hrun; exact absurd hrun (by simp)
    | some t =>
      obtain ⟨obs, r, d, inf, es2⟩ := t
      rw [hstep] at hrun
      dsimp only at hrun
      cases hrest : run sqrt cfg es2 rest with
      | none => rw [hrest] at hrun; exact absurd hrun (by simp)
      | some outs2 =>
        rw [hrest] at hrun
        simp only [Option.some.injEq] at hrun
        subst hrun
        rw [step_remove_eq sqrt cfg htask es i.sim i.action i.noise] at hstep
        simp only [Option.some.injEq, Prod.mk.injEq] at hstep
        obtain ⟨h1, h2, h3, h4, h5⟩ := hstep
        obtain ⟨ih1, ih2⟩ := ih es2 outs2 hrest
        constructor
        · simp only [List.map_cons, ih1, List.cons.injEq, and_true]
          rw [← h5]
          simp [remove_reward]
        · simp only [List.map_cons, deltas, ih2, List.cons.injEq, and_true]
          rw [← h4, ← h5]
          simp only [remove_reward]
          split <;> rfl
  
theorem run_prev_dist_insert (sqrt : α → α) (cfg : Config α)
    (htask : cfg.task = "insert") :
    ∀ (ins : List (SimInput α)) (es : EpState α) (outs : List (StepOut α)),
      run sqrt cfg es ins = some outs →
      outs.map (fun o => o.es.prev_dist) =
        ins.map (fun i => dist_to_goal sqrt i.sim)
      ∧ outs.map (fun o => o.info.peg_to_goal_rew) =
        (deltas es outs).map (fun x => some (x * cfg.peg_to_point_rew_coeff)) := by
  intro ins
  induction ins with
  | nil =>
    intro es outs hrun
    simp only [run, Option.some.injEq] at hrun
    subst hrun
    simp [deltas]
  | cons i rest ih =>
    intro es outs hrun
    rw [run] at hrun
    cases hstep : step sqrt cfg es i.sim i.action i.noise with
    | none => rw [hstep] at hrun; exact absurd hrun (by simp)
    | some t =>
      obtain ⟨obs, r, d, inf, es2⟩ := t
      rw [hstep] at hrun
      dsimp only at hrun
      cases hrest : run sqrt cfg es2 rest with
      | none => rw [hrest] at hrun; exact absurd hrun (by simp)
      | some outs2 =>
        rw [hrest] at hrun
        simp only [Option.some.injEq] at hrun
        subst hrun
        rw [step_insert_eq sqrt cfg htask es i.sim i.action i.noise] at hstep
        simp only [Option.some.injEq, Prod.mk.injEq] at hstep
        obtain ⟨h1, h2, h3, h4, h5⟩ := hstep
        obtain ⟨ih1, ih2⟩ := ih es2 outs2 hrest
        constructor
        · simp only [List.map_cons, ih1, List.cons.injEq, and_true]
          rw [← h5]
          simp [insert_reward]
        · simp only [List.map_cons, deltas, ih2, List.cons.injEq, and_true]
          rw [← h4, ← h5]
          simp only [insert_reward]
          split <;> rfl

theorem deltas_sum_telescopes (es : EpState α) (outs : List (StepOut α)) :
    (deltas es outs).sum = es.prev_dist - (final_es es outs).prev_dist := by
  induction outs generalizing es with
  | nil => simp [deltas, final_es]
  | cons o rest ih =>
    simp only [deltas, final_es, List.sum_cons, ih o.es]
    ring

/-- C6: `prev_dist` is a step/reset invariant: right after reset it equals
the distance from the reset pose to the task's reference pose; after every
step it equals the distance computed during that step; the shaping term of
step k is the delta `distance(k-1) - distance(k)` (times the shaping
coefficient); and the deltas over an episode telescope to (distance before
the first step) minus (distance after the last step). -/
theorem C6_prev_dist_invariant (cfg : Config ℝ) (sim0 : SimState ℝ)
    (es : EpState ℝ) (ins : List (SimInput ℝ)) (outs : List (StepOut ℝ))
    (hrun : run Real.sqrt cfg es ins = some outs) :
    (cfg.task = "remove" →
      (reset_episodic_vars Real.sqrt cfg sim0).map (fun e => e.prev_dist) =
        some (dist_to_start Real.sqrt sim0)
      ∧ outs.map (fun o => o.es.prev_dist) =
        ins.map (fun i => dist_to_start Real.sqrt i.sim)
      ∧ outs.map (fun o => o.info.peg_to_start_rew) =
        (deltas es outs).map (fun x => some (x * cfg.peg_to_point_rew_coeff)))
    ∧ (cfg.task = "insert" →
      (reset_episodic_vars Real.sqrt cfg sim0).map (fun e => e.prev_dist) =
        some (dist_to_goal Real.sqrt sim0)
      ∧ outs.map (fun o => o.es.prev_dist) =
        ins.map (fun i => dist_to_goal Real.sqrt i.sim)
      ∧ outs.map (fun o => o.info.peg_to_goal_rew) =
        (deltas es outs).map (fun x => some (x * cfg.peg_to_point_rew_coeff)))
    ∧ (deltas es outs).sum = es.prev_dist - (final_es es outs).prev_dist := by
  refine ⟨?_, ?_, deltas_sum_telescopes es outs⟩
  · intro htask
    obtain ⟨h1, h2⟩ := run_prev_dist_remove Real.sqrt cfg htask ins es outs hrun
    exact ⟨by simp [reset_episodic_vars, htask], h1, h2⟩
  · intro htask
    obtain ⟨h1, h2⟩ := run_prev_dist_insert Real.sqrt cfg htask ins es outs hrun
    have hne : cfg.task ≠ "remove" := by rw [htask]; simp
    exact ⟨by simp [reset_episodic_vars, htask, hne], h1, h2⟩

/-- Witness for C6 on a concrete (empty) episode. -/
theorem C6_prev_dist_invariant_witness :
    run Real.sqrt cfgRemove esReset ([] : List (SimInput ℝ)) = some [] ∧
    ((cfgRemove.task = "remove" →
      (reset_episodic_vars Real.sqrt cfgRemove simZero).map (fun e => e.prev_dist) =
        some (dist_to_start Real.sqrt simZero)
      ∧ ([] : List (StepOut ℝ)).map (fun o => o.es.prev_dist) =
        ([] : List (SimInput ℝ)).map (fun i => dist_to_start Real.sqrt i.sim)
      ∧ ([] : List (StepOut ℝ)).map (fun o => o.info.peg_to_start_rew) =
        (deltas esReset ([] : List (StepOut ℝ))).map
          (fun x => some (x * cfgRemove.peg_to_point_rew_coeff)))
    ∧ (cfgRemove.task = "insert" →
      (reset_episodic_vars Real.sqrt cfgRemove simZero).map (fun e => e.prev_dist) =
        some (dist_to_goal Real.sqrt simZero)
      ∧ ([] : List (StepOut ℝ)).map (fun o => o.es.prev_dist) =
        ([] : List (SimInput ℝ)).map (fun i => dist_to_goal Real.sqrt i.sim)
      ∧ ([] : List (StepOut ℝ)).map (fun o => o.info.peg_to_goal_rew) =
        (deltas esReset ([] : List (StepOut ℝ))).map
          (fun x => some (x * cfgRemove.peg_to_point_rew_coeff)))
    ∧ (deltas esReset ([] : List (StepOut ℝ))).sum =
        esReset.prev_dist - (final_es esReset ([] : List (StepOut ℝ))).prev_dist) :=
  ⟨rfl, C6_prev_dist_invariant cfgRemove simZero esReset [] [] rfl⟩

/-! ### C7 -/

/-- C7: every observation returned by `step` or `reset` contains an
`object_ob` entry of length 7 (ball position ++ quaternion), and a
`robot_ob` entry (of length 14, qpos ++ qvel) exactly when the robot
observation flag is set. -/
theorem C7_observation_shape (cfg : Config ℝ) (sim : SimState ℝ)
    (es : EpState ℝ) (a0 noise : Fin 7 → ℝ) :
    (get_obs cfg sim).object_ob.length = 7
    ∧ (get_obs cfg sim).robot_ob.isSome = cfg.robot_ob
    ∧ (get_obs cfg sim).robot_ob.map List.length =
      (if cfg.robot_ob then some 14 else none)
    ∧ (reset Real.sqrt cfg sim).1 = get_obs cfg sim
    ∧ (step Real.sqrt cfg es sim a0 noise).map (fun o => o.1) =
      (step Real.sqrt cfg es sim a0 noise).map (fun _ => get_obs cfg sim) := by
  refine ⟨?_, ?_, ?_, rfl, ?_⟩
  · simp [get_obs]
  · cases hrob : cfg.robot_ob <;> simp [get_obs, hrob]
  · cases hrob : cfg.robot_ob <;> simp [get_obs, hrob]
  · cases hstep : step Real.sqrt cfg es sim a0 noise with
    | none => rfl
    | some t =>
      obtain ⟨obs, r, d, inf, es2⟩ := t
      obtain ⟨_, _, _, _, _, _, hobs⟩ :=
        step_some_bookkeeping Real.sqrt cfg es sim a0 noise obs r d inf es2 hstep
      simp [hobs]

/-! ### C8 -/

/-- A configuration whose task is neither "insert" nor "remove". -/
def cfgBad : Config ℝ :=
  { sparse_rew := false, task := "none", max_episode_steps := 100
    robot_ob := false, goal_pos_threshold := 0.05, action_noise := none
    peg_to_point_rew_coeff := 1, success_rew := 10, control_penalty_coeff := 0 }

/-- C8: when the task is neither "insert" nor "remove", no reward branch of
`step` executes (the Python code then dies on the unbound local `reward`,
modelled as `none`), and `_reset_episodic_vars` likewise leaves the
previous-distance scalar unset. -/
theorem C8_unset_task_is_fatal (cfg : Config ℝ) (es : EpState ℝ)
    (sim : SimState ℝ) (a0 noise : Fin 7 → ℝ)
    (h1 : cfg.task ≠ "insert") (h2 : cfg.task ≠ "remove") :
    step Real.sqrt cfg es sim a0 noise = none
    ∧ reset_episodic_vars Real.sqrt cfg sim = none :=
  ⟨step_other_eq Real.sqrt cfg h1 h2 es sim a0 noise,
    by simp [reset_episodic_vars, h1, h2]⟩

/-- Witness for C8 at the concrete bad configuration. -/
theorem C8_unset_task_is_fatal_witness :
    cfgBad.task ≠ "insert" ∧ cfgBad.task ≠ "remove" ∧
    (step Real.sqrt cfgBad esInit simZero (fun _ => 0) (fun _ => 0) = none
    ∧ reset_episodic_vars Real.sqrt cfgBad simZero = none) :=
  ⟨by simp [cfgBad], by simp [cfgBad],
    C8_unset_task_is_fatal cfgBad esInit simZero (fun _ => 0) (fun _ => 0)
      (by simp [cfgBad]) (by simp [cfgBad])⟩

/-! ### C9 -/

theorem step_noise_independent (sqrt : α → α) (cfg : Config α)
    (hnoise : cfg.action_noise = none) (es : EpState α) (sim : SimState α)
    (a0 n1 n2 : Fin 7 → α) :
    step sqrt cfg es sim a0 n1 = step sqrt cfg es sim a0 n2 := by
  simp only [step, apply_noise, hnoise]

/-- C9: with no configured action noise, runs over the same deterministic
simulator trace with the same actions produce identical outputs — in
particular identical reward sequences — whatever noise samples are drawn:
the reward and bookkeeping computation introduces no nondeterminism of its
own. -/
theorem C9_deterministic (cfg : Config ℝ) (es : EpState ℝ)
    (ins1 ins2 : List (SimInput ℝ)) (hnoise : cfg.action_noise = none)
    (hsim : ins1.map (fun i => i.sim) = ins2.map (fun i => i.sim))
    (hact : ins1.map (fun i => i.action) = ins2.map (fun i => i.action)) :
    run Real.sqrt cfg es ins1 = run Real.sqrt cfg es ins2 := by
  induction ins1 generalizing es ins2 with
  | nil =>
    cases ins2 with
    | nil => rfl
    | cons j rest2 => exact absurd hsim (by simp)
  | cons i rest ih =>
    cases ins2 with
    | nil => exact absurd hsim (by simp)
    | cons j rest2 =>
      simp only [List.map_cons, List.cons.injEq] at hsim hact
      obtain ⟨hs1, hs2⟩ := hsim
      obtain ⟨ha1, ha2⟩ := hact
      have hstep : step Real.sqrt cfg es i.sim i.action i.noise =
          step Real.sqrt cfg es j.sim j.action j.noise := by
        rw [hs1, ha1]
        exact step_noise_independent Real.sqrt cfg hnoise es j.sim j.action
          i.noise j.noise
      simp only [run, hstep]
      cases hst : step Real.sqrt cfg es j.sim j.action j.noise with
      | none => rfl
      | some t =>
        obtain ⟨obs, r, d, inf, es2⟩ := t
        dsimp only
        rw [ih es2 rest2 hs2 ha2]

/-- Witness for C9: two singleton traces equal except for their noise
samples. -/
theorem C9_deterministic_witness :
    cfgRemove.action_noise = none ∧
    ([⟨simZero, fun _ => 0, fun _ => 1⟩] : List (SimInput ℝ)).map (fun i => i.sim) =
      ([⟨simZero, fun _ => 0, fun _ => 2⟩] : List (SimInput ℝ)).map (fun i => i.sim) ∧
    ([⟨simZero, fun _ => 0, fun _ => 1⟩] : List (SimInput ℝ)).map (fun i => i.action) =
      ([⟨simZero, fun _ => 0, fun _ => 2⟩] : List (SimInput ℝ)).map (fun i => i.action) ∧
    run Real.sqrt cfgRemove esInit [⟨simZero, fun _ => 0, fun _ => 1⟩] =
      run Real.sqrt cfgRemove esInit [⟨simZero, fun _ => 0, fun _ => 2⟩] :=
  ⟨rfl, rfl, rfl,
    C9_deterministic cfgRemove esInit
      [⟨simZero, fun _ => 0, fun _ => 1⟩] [⟨simZero, fun _ => 0, fun _ => 2⟩]
      rfl rfl rfl⟩

/-! ### C10 -/

/-- C10: the success flag is not latched: each step recomputes it from the
current threshold test alone (the result never depends on the incoming
success flag), so a success achieved at one step reverts to false at the
next step when the test fails there. -/
theorem C10_success_not_latched (cfg : Config ℝ) (sim sim2 : SimState ℝ)
    (es : EpState ℝ) (a0 noise : Fin 7 → ℝ) :
    (cfg.task = "remove" →
      (step Real.sqrt cfg es sim a0 noise).map (fun o => o.2.2.2.2.success) =
        some (decide (dist_to_start Real.sqrt sim < cfg.goal_pos_threshold)))
    ∧ (cfg.task = "insert" →
      (step Real.sqrt cfg es sim a0 noise).map (fun o => o.2.2.2.2.success) =
        some (decide (dist_to_goal Real.sqrt sim < cfg.goal_pos_threshold) &&
              decide (sim.leg_bottom 2 < -0.45)))
    ∧ (cfg.task = "remove" →
        dist_to_start Real.sqrt sim < cfg.goal_pos_threshold →
        ¬ dist_to_start Real.sqrt sim2 < cfg.goal_pos_threshold →
      (step Real.sqrt cfg es sim a0 noise).map (fun o => o.2.2.2.2.success) =
        some true
      ∧ ((step Real.sqrt cfg es sim a0 noise).bind (fun o =>
            step Real.sqrt cfg o.2.2.2.2 sim2 a0 noise)).map
          (fun o => o.2.2.2.2.success) = some false) := by
  refine ⟨?_, ?_, ?_⟩
  · intro ht
    rw [step_remove_eq Real.sqrt cfg ht es sim a0 noise]
    simp [remove_reward]
  · intro ht
    rw [step_insert_eq Real.sqrt cfg ht es sim a0 noise]
    simp [insert_reward]
  · intro ht h1 h2
    constructor
    · rw [step_remove_eq Real.sqrt cfg ht es sim a0 noise]
      simp [remove_reward, h1]
    · rw [step_remove_eq Real.sqrt cfg ht es sim a0 noise]
      simp only [Option.some_bind]
      rw [step_remove_eq Real.sqrt cfg ht]
      simp [remove_reward, h2]

/-- Witness for C10 at concrete states. -/
theorem C10_success_not_latched_witness :
    ((cfgRemove.task = "remove" →
      (step Real.sqrt cfgRemove esInit simZero (fun _ => 0) (fun _ => 0)).map
          (fun o => o.2.2.2.2.success) =
        some (decide (dist_to_start Real.sqrt simZero < cfgRemove.goal_pos_threshold)))
    ∧ (cfgRemove.task = "insert" →
      (step Real.sqrt cfgRemove esInit simZero (fun _ => 0) (fun _ => 0)).map
          (fun o => o.2.2.2.2.success) =
        some (decide (dist_to_goal Real.sqrt simZero < cfgRemove.goal_pos_threshold) &&
              decide (simZero.leg_bottom 2 < -0.45)))
    ∧ (cfgRemove.task = "remove" →
        dist_to_start Real.sqrt simZero < cfgRemove.goal_pos_threshold →
        ¬ dist_to_start Real.sqrt simZero < cfgRemove.goal_pos_threshold →
      (step Real.sqrt cfgRemove esInit simZero (fun _ => 0) (fun _ => 0)).map
          (fun o => o.2.2.2.2.success) = some true
      ∧ ((step Real.sqrt cfgRemove esInit simZero (fun _ => 0) (fun _ => 0)).bind
            (fun o => step Real.sqrt cfgRemove o.2.2.2.2 simZero (fun _ => 0)
              (fun _ => 0))).map (fun o => o.2.2.2.2.success) = some false)) :=
  C10_success_not_latched cfgRemove simZero simZero esInit (fun _ => 0) (fun _ => 0)

end PegInsertion
